import Mathlib

/-!
Verification of the OCR-mac page-processing stage (`docling/models/ocr_mac_model.py`).

The development shallowly embeds the module: the coordinate transform in the
detection loop of `OcrMacModel.__call__` becomes a pure function on rationals,
the per-page control flow becomes a function from a page list to the list of
yielded pages together with a trace of the external calls made, and the
constructor's availability checks become a function returning `Except`.
External collaborators (page backend, region selector, recognition engine,
cell post-processing) are oracles supplied through an environment record.
-/

namespace OcrMac

/-- One raw recognition result, as unpacked in the loop
`for ix, (text, confidence, box) in enumerate(boxes)`: the box components
`x, y, w, h` are fractional coordinates in the rendered image, bottom-left
origin.  Python floats are modelled as rationals. -/
structure RawDetection where
  text : String
  confidence : ℚ
  x : ℚ
  y : ℚ
  w : ℚ
  h : ℚ
deriving DecidableEq, Repr

/-- A rectangle in top-left-origin page coordinates, modelling the
`BoundingBox.from_tuple(coord=(left, top, right, bottom), origin=TOPLEFT)`
value stored in each produced cell. -/
structure Rect where
  left : ℚ
  top : ℚ
  right : ℚ
  bottom : ℚ
deriving DecidableEq, Repr

/-- The coordinate transform of `OcrMacModel.__call__` (lines 98-113 of the
source): given the rendered image size `(W, H) = high_res_image.size`, the
scale `S = self.scale`, and a detection, compute
`x1 = x*W`, `y2 = (1-y)*H`, `x2 = x1 + w*W`, `y1 = y2 - h*H`, then divide all
four by `S` to obtain `(left, top, right, bottom)`. -/
def mapDetection (W H S : ℚ) (d : RawDetection) : Rect :=
  let x1 := d.x * W
  let y2 := (1 - d.y) * H
  let x2 := x1 + d.w * W
  let y1 := y2 - d.h * H
  { left := x1 / S, top := y1 / S, right := x2 / S, bottom := y2 / S }

/-- Multiply every coordinate of a rectangle by `k` (used to state the
scale-invariance property of claim C2). -/
def scaleRect (r : Rect) (k : ℚ) : Rect :=
  { left := r.left * k, top := r.top * k, right := r.right * k,
    bottom := r.bottom * k }

/-- The `TextCell` constructed for each detection: `index=ix`, `text=text`,
`orig=text`, `from_ocr=True`, `confidence=confidence`, and the mapped
rectangle. -/
structure TextCell where
  index : Nat
  text : String
  orig : String
  from_ocr : Bool
  confidence : ℚ
  rect : Rect
deriving DecidableEq, Repr

/-- Build the cell for the detection at position `ix` of a region's
detection list. -/
def mkCell (W H S : ℚ) (ix : Nat) (d : RawDetection) : TextCell :=
  { index := ix, text := d.text, orig := d.text, from_ocr := true,
    confidence := d.confidence, rect := mapDetection W H S d }

/-- The inner `for ix, (text, confidence, box) in enumerate(boxes)` loop:
one cell per detection, indexed by its position in the region's list. -/
def cellsForRegion (W H S : ℚ) (boxes : List RawDetection) : List TextCell :=
  boxes.enum.map (fun p => mkCell W H S p.1 p.2)

/-- A candidate OCR rectangle in page-pixel space.  `get_ocr_rects` and the
bounding-box type live outside this file of the repository; modelled from the
spec: an `OcrRect` is "a rectangle in page-pixel space, origin top-left" whose
`area()` is width times height, with `area() == 0` a valid degenerate value. -/
structure OcrRect where
  l : ℚ
  t : ℚ
  r : ℚ
  b : ℚ
deriving DecidableEq, Repr

/-- Modelled from the spec: the bounding-box `area()` used in the zero-area
skip test, width times height. -/
def OcrRect.area (rc : OcrRect) : ℚ :=
  (rc.r - rc.l) * (rc.b - rc.t)

/-- The bitmap returned by `page._backend.get_page_image`; only its pixel
size `high_res_image.size` is consumed by the transform. -/
structure RenderedImage where
  width : Nat
  height : Nat
deriving DecidableEq, Repr

/-- The page backend: `is_valid()` and `get_page_image(scale, cropbox)`. -/
structure Backend where
  is_valid : Bool
  get_page_image : ℚ → OcrRect → RenderedImage

/-- A page: `page._backend` is optional (hence the `assert` in the source),
and the page carries content cells.  `id` stands for the rest of the page's
content, untouched by this stage. -/
structure Page where
  id : Nat
  backend : Option Backend
  cells : List TextCell

/-- Trace of calls to the external collaborators, recorded so that the
no-side-effect claims can be stated. -/
inductive Event where
  | selectRegions
  | render (rc : OcrRect)
  | recognize (img : RenderedImage)
  | postProcess (cells : List TextCell)

/-- The external collaborators of `__call__`: the region selector
(`get_ocr_rects`), the recognition engine (`reader_RIL(...).recognize()`),
and the cell aggregator (`post_process_cells`), all outside this file of the
repository and supplied as oracles. -/
structure Env where
  getOcrRects : Page → List OcrRect
  recognize : RenderedImage → List RawDetection
  postProcess : List TextCell → Page → Page

/-- Errors a call can raise (spec section 7 taxonomy): a configuration
error, which `__call__` itself never raises, and the `assert
page._backend is not None` failure. -/
inductive PipelineError where
  | configurationError
  | assertionFailed
deriving DecidableEq, Repr

/-- One iteration of the `for ocr_rect in ocr_rects` loop: skip zero-area
rectangles, otherwise render at scale `3` (`self.scale`), recognize, and map
every detection to a cell; returns the cells and the calls made. -/
def processRect (env : Env) (b : Backend) (rc : OcrRect) :
    List TextCell × List Event :=
  if rc.area = 0 then ([], [])
  else
    let img := b.get_page_image 3 rc
    let boxes := env.recognize img
    (cellsForRegion (img.width : ℚ) (img.height : ℚ) 3 boxes,
      [Event.render rc, Event.recognize img])

/-- The whole rectangle loop: accumulate cells (`all_ocr_cells.extend`) and
events across the page's candidate rectangles, in order. -/
def processRects (env : Env) (b : Backend) :
    List OcrRect → List TextCell × List Event
  | [] => ([], [])
  | rc :: rest =>
    let pe := processRect env b rc
    let rest' := processRects env b rest
    (pe.1 ++ rest'.1, pe.2 ++ rest'.2)

/-- The body of the page loop: assert the backend exists (else the generator
raises), pass invalid pages through untouched, otherwise select regions,
process them, and hand the accumulated cells once to `post_process_cells`. -/
def processPage (env : Env) (page : Page) :
    Except PipelineError (Page × List Event) :=
  match page.backend with
  | none => .error .assertionFailed
  | some b =>
    match b.is_valid with
    | false => .ok (page, [])
    | true =>
      let rects := env.getOcrRects page
      let ce := processRects env b rects
      let page' := env.postProcess ce.1 page
      .ok (page', Event.selectRegions :: ce.2 ++ [Event.postProcess ce.1])

/-- Result of driving the generator to completion: the pages yielded before
any uncaught exception, the calls made, and the exception if one aborted the
stream. -/
structure CallResult where
  yielded : List Page
  events : List Event
  aborted : Option PipelineError

/-- Drive the `for page in page_batch` loop: yield processed pages until a
page raises, which ends the stream. -/
def processPages (env : Env) : List Page → CallResult
  | [] => ⟨[], [], none⟩
  | p :: ps =>
    match processPage env p with
    | .error e => ⟨[], [], some e⟩
    | .ok pe =>
      let rest := processPages env ps
      ⟨pe.1 :: rest.yielded, pe.2 ++ rest.events, rest.aborted⟩

/-- `OcrMacModel.__call__`: when disabled, `yield from page_batch` with no
further work; when enabled, run the page loop. -/
def ocrCall (env : Env) (enabled : Bool) (pages : List Page) : CallResult :=
  match enabled with
  | false => ⟨pages, [], none⟩
  | true => processPages env pages

/-- The page a successful run yields for an input page (the error branch is
never reached when the page's backend is present). -/
def processedPage (env : Env) (p : Page) : Page :=
  match processPage env p with
  | .ok pe => pe.1
  | .error _ => p

/-- Errors `OcrMacModel.__init__` can raise: the `RuntimeError` on a
non-darwin platform and the `ImportError` when `ocrmac` is missing. -/
inductive ConstructionError where
  | platformUnsupported
  | engineNotInstalled
deriving DecidableEq, Repr

/-- The constructed model state used by this stage: the `enabled` flag and
`self.scale = 3`. -/
structure OcrMacModel where
  enabled : Bool
  scale : ℚ
deriving DecidableEq, Repr

/-- `OcrMacModel.__init__`: set `scale = 3`; when enabled, require
`sys.platform == "darwin"` and a successful `import ocrmac`, raising
otherwise; when disabled, perform no availability check. -/
def mkOcrMacModel (enabled : Bool) (platform : String)
    (ocrmacInstalled : Bool) : Except ConstructionError OcrMacModel :=
  if enabled then
    if platform ≠ "darwin" then .error .platformUnsupported
    else if ocrmacInstalled = false then .error .engineNotInstalled
    else .ok ⟨enabled, 3⟩
  else .ok ⟨enabled, 3⟩

/-- A concrete rendered image used to instantiate the oracles. -/
def sampleImage : RenderedImage :=
  { width := 600, height := 900 }

/-- Two concrete detections, giving a region detection list of length two. -/
def sampleDetections : List RawDetection :=
  [{ text := "a", confidence := 1, x := 1/10, y := 1/5, w := 3/10, h := 1/10 },
   { text := "b", confidence := 1/2, x := 1/2, y := 1/2, w := 1/10, h := 1/10 }]

/-- A backend whose page is valid. -/
def sampleBackendValid : Backend :=
  { is_valid := true, get_page_image := fun _ _ => sampleImage }

/-- A backend whose page reports invalid. -/
def sampleBackendInvalid : Backend :=
  { is_valid := false, get_page_image := fun _ _ => sampleImage }

/-- A concrete candidate rectangle with nonzero area. -/
def rectA : OcrRect :=
  { l := 0, t := 0, r := 100, b := 100 }

/-- A second concrete candidate rectangle with nonzero area. -/
def rectB : OcrRect :=
  { l := 0, t := 0, r := 200, b := 100 }

/-- A degenerate candidate rectangle with zero area. -/
def degenerateRect : OcrRect :=
  { l := 5, t := 5, r := 5, b := 9 }

/-- A concrete environment: two candidate rectangles per page, two
detections per region, and an aggregator that appends the cells. -/
def sampleEnv : Env :=
  { getOcrRects := fun _ => [rectA, rectB]
    recognize := fun _ => sampleDetections
    postProcess := fun cs p => { p with cells := p.cells ++ cs } }

/-- A page with a valid backend. -/
def samplePageValid : Page :=
  { id := 0, backend := some sampleBackendValid, cells := [] }

/-- A page whose backend reports invalid. -/
def samplePageInvalid : Page :=
  { id := 1, backend := some sampleBackendInvalid, cells := [] }

/-- A page with no backend reference at all. -/
def samplePageNoBackend : Page :=
  { id := 2, backend := none, cells := [] }

end OcrMac

namespace OcrMac

/-- C1: the coordinate mapper computes exactly
`left = x*W/S`, `top = ((1-y)*H - h*H)/S`, `right = (x*W + w*W)/S`,
`bottom = (1-y)*H/S`, and on the detection `(0.1, 0.2, 0.3, 0.1)` with image
`(600, 900)` and scale `3` it yields `left=20, top=210, right=80,
bottom=240`. -/
theorem C1_coordinate_transform :
    (∀ (W H S : ℚ) (d : RawDetection),
      mapDetection W H S d =
        { left := d.x * W / S,
          top := ((1 - d.y) * H - d.h * H) / S,
          right := (d.x * W + d.w * W) / S,
          bottom := (1 - d.y) * H / S }) ∧
    mapDetection 600 900 3
        { text := "t", confidence := 1, x := 1/10, y := 1/5, w := 3/10,
          h := 1/10 } =
      { left := 20, top := 210, right := 80, bottom := 240 } := by
  constructor
  · intro W H S d
    rfl
  · norm_num [mapDetection, Rect.mk.injEq]

/-- C2: with the detection and image size held fixed, doubling the scale
halves each output coordinate, and the output rescaled by the scale factor
itself does not depend on the scale factor. -/
theorem C2_scale_invariance (W H S : ℚ) (d : RawDetection)
    (hx0 : 0 ≤ d.x) (hx1 : d.x ≤ 1) (hy0 : 0 ≤ d.y) (hy1 : d.y ≤ 1)
    (hw0 : 0 ≤ d.w) (hw1 : d.w ≤ 1) (hh0 : 0 ≤ d.h) (hh1 : d.h ≤ 1)
    (hW : 0 < W) (hH : 0 < H) (hS : 0 < S) :
    mapDetection W H (2 * S) d = scaleRect (mapDetection W H S d) (1/2) ∧
    ∀ S', 0 < S' →
      scaleRect (mapDetection W H S' d) S' =
        scaleRect (mapDetection W H S d) S := by
  have hS' := ne_of_gt hS
  constructor
  · simp only [mapDetection, scaleRect, Rect.mk.injEq]
    refine ⟨?_, ?_, ?_, ?_⟩ <;> ring
  · intro S' hS'pos
    have hS'' := ne_of_gt hS'pos
    simp only [mapDetection, scaleRect, Rect.mk.injEq]
    refine ⟨?_, ?_, ?_, ?_⟩ <;> field_simp

/-- Witness for C2 at a concrete detection, image size and scale. -/
theorem C2_scale_invariance_witness :
    mapDetection 600 900 (2 * 3)
        { text := "t", confidence := 1, x := 1/10, y := 1/5, w := 3/10,
          h := 1/10 } =
      scaleRect
        (mapDetection 600 900 3
          { text := "t", confidence := 1, x := 1/10, y := 1/5, w := 3/10,
            h := 1/10 }) (1/2) :=
  (C2_scale_invariance 600 900 3
    { text := "t", confidence := 1, x := 1/10, y := 1/5, w := 3/10,
      h := 1/10 }
    (by norm_num) (by norm_num) (by norm_num) (by norm_num) (by norm_num)
    (by norm_num) (by norm_num) (by norm_num) (by norm_num) (by norm_num)
    (by norm_num)).1

/-- C3: for box components in `[0,1]` and positive `W`, `H`, `S`, the mapped
rectangle has `left ≤ right` and `top ≤ bottom` iff `w ≥ 0` and `h ≥ 0`. -/
theorem C3_rect_ordering (W H S : ℚ) (d : RawDetection)
    (hx0 : 0 ≤ d.x) (hx1 : d.x ≤ 1) (hy0 : 0 ≤ d.y) (hy1 : d.y ≤ 1)
    (hw0 : 0 ≤ d.w) (hw1 : d.w ≤ 1) (hh0 : 0 ≤ d.h) (hh1 : d.h ≤ 1)
    (hW : 0 < W) (hH : 0 < H) (hS : 0 < S) :
    ((mapDetection W H S d).left ≤ (mapDetection W H S d).right ∧
      (mapDetection W H S d).top ≤ (mapDetection W H S d).bottom) ↔
      (0 ≤ d.w ∧ 0 ≤ d.h) := by
  have hleft : (mapDetection W H S d).left ≤ (mapDetection W H S d).right := by
    simp only [mapDetection]
    rw [div_le_div_iff_of_pos_right hS]
    nlinarith
  have htop : (mapDetection W H S d).top ≤ (mapDetection W H S d).bottom := by
    simp only [mapDetection]
    rw [div_le_div_iff_of_pos_right hS]
    nlinarith
  exact iff_of_true ⟨hleft, htop⟩ ⟨hw0, hh0⟩

/-- Witness for C3 at a concrete detection, image size and scale. -/
theorem C3_rect_ordering_witness :
    ((mapDetection 600 900 3
        { text := "t", confidence := 1, x := 1/10, y := 1/5, w := 3/10,
          h := 1/10 }).left ≤
      (mapDetection 600 900 3
        { text := "t", confidence := 1, x := 1/10, y := 1/5, w := 3/10,
          h := 1/10 }).right ∧
      (mapDetection 600 900 3
        { text := "t", confidence := 1, x := 1/10, y := 1/5, w := 3/10,
          h := 1/10 }).top ≤
      (mapDetection 600 900 3
        { text := "t", confidence := 1, x := 1/10, y := 1/5, w := 3/10,
          h := 1/10 }).bottom) ↔
      (0 ≤ (3 : ℚ)/10 ∧ 0 ≤ (1 : ℚ)/10) :=
  C3_rect_ordering 600 900 3
    { text := "t", confidence := 1, x := 1/10, y := 1/5, w := 3/10,
      h := 1/10 }
    (by norm_num) (by norm_num) (by norm_num) (by norm_num) (by norm_num)
    (by norm_num) (by norm_num) (by norm_num) (by norm_num) (by norm_num)
    (by norm_num)

/-- Helper: a page whose backend is present is never the source of the
assertion failure; `processPage` succeeds on it. -/
theorem processPage_some (env : Env) (p : Page) (h : p.backend.isSome) :
    ∃ pe, processPage env p = .ok pe := by
  cases hp : p.backend with
  | none => rw [hp] at h; exact absurd h (by simp)
  | some b =>
    cases hv : b.is_valid with
    | false => exact ⟨(p, []), by simp [processPage, hp, hv]⟩
    | true =>
      refine ⟨(env.postProcess (processRects env b (env.getOcrRects p)).1 p,
        Event.selectRegions :: ((processRects env b (env.getOcrRects p)).2 ++
          [Event.postProcess (processRects env b (env.getOcrRects p)).1])),
        ?_⟩
      simp [processPage, hp, hv]

/-- Helper: the only error `processPage` ever produces is the backend
assertion failure. -/
theorem processPage_error_assertion (env : Env) (p : Page)
    (e : PipelineError) (h : processPage env p = .error e) :
    e = .assertionFailed := by
  cases hp : p.backend with
  | none =>
    simp [processPage, hp] at h
    exact h.symm
  | some b =>
    cases hv : b.is_valid with
    | false => simp [processPage, hp, hv] at h
    | true => simp [processPage, hp, hv] at h

/-- Helper: when every page's backend is present, the page loop yields
exactly the processed pages, in order, and does not abort. -/
theorem processPages_all_some (env : Env) (pages : List Page)
    (h : ∀ p ∈ pages, p.backend.isSome) :
    (processPages env pages).yielded = pages.map (processedPage env) ∧
    (processPages env pages).aborted = none := by
  induction pages with
  | nil => exact ⟨rfl, rfl⟩
  | cons p ps ih =>
    obtain ⟨pe, hpe⟩ := processPage_some env p (h p (List.mem_cons_self p ps))
    have hps := ih (fun q hq => h q (List.mem_cons_of_mem p hq))
    simp [processPages, hpe, hps.1, hps.2, processedPage]

/-- Helper: with good pages in front, the loop aborts with the assertion
failure exactly when it reaches a page with no backend, having yielded the
pages before it. -/
theorem processPages_abort_at (env : Env) (p : Page)
    (hp : p.backend = none) :
    ∀ (ps : List Page), (∀ q ∈ ps, q.backend.isSome) → ∀ (qs : List Page),
      (processPages env (ps ++ p :: qs)).aborted =
        some PipelineError.assertionFailed ∧
      (processPages env (ps ++ p :: qs)).yielded.length = ps.length := by
  intro ps
  induction ps with
  | nil =>
    intro _ qs
    simp [processPages, processPage, hp]
  | cons q ps' ih =>
    intro h qs
    obtain ⟨pe, hpe⟩ := processPage_some env q (h q (List.mem_cons_self q ps'))
    have hrest := ih (fun r hr => h r (List.mem_cons_of_mem q hr)) qs
    simp [processPages, hpe, hrest.1, hrest.2]

/-- C4: a candidate rectangle of zero area contributes no render call, no
recognition call and no cell; the rectangle loop is unchanged by dropping
all zero-area rectangles. -/
theorem C4_zero_area_skipped :
    (∀ (env : Env) (b : Backend) (rc : OcrRect), rc.area = 0 →
      processRect env b rc = ([], [])) ∧
    (∀ (env : Env) (b : Backend) (rects : List OcrRect),
      processRects env b rects =
        processRects env b
          (rects.filter (fun rc => decide (rc.area ≠ 0)))) := by
  have h1 : ∀ (env : Env) (b : Backend) (rc : OcrRect), rc.area = 0 →
      processRect env b rc = ([], []) := by
    intro env b rc h
    simp [processRect, h]
  refine ⟨h1, ?_⟩
  intro env b rects
  induction rects with
  | nil => rfl
  | cons rc rest ih =>
    by_cases h : rc.area = 0
    · simp [List.filter_cons, h, processRects, h1 env b rc h, ih]
    · simp [List.filter_cons, h, processRects, ih]

/-- Witness for C4 at a concrete zero-area rectangle. -/
theorem C4_zero_area_skipped_witness :
    processRect sampleEnv sampleBackendValid degenerateRect = ([], []) :=
  C4_zero_area_skipped.1 sampleEnv sampleBackendValid degenerateRect
    (by norm_num [degenerateRect, OcrRect.area])

/-- C5: a page whose backend reports invalid is yielded unchanged, with no
cells added and no call to any collaborator. -/
theorem C5_invalid_page_passthrough (env : Env) (p : Page) (b : Backend)
    (hb : p.backend = some b) (hv : b.is_valid = false) :
    processPage env p = .ok (p, []) := by
  simp [processPage, hb, hv]

/-- Witness for C5 at a concrete invalid page. -/
theorem C5_invalid_page_passthrough_witness :
    processPage sampleEnv samplePageInvalid = .ok (samplePageInvalid, []) :=
  C5_invalid_page_passthrough sampleEnv samplePageInvalid
    sampleBackendInvalid rfl rfl

/-- C6: with the stage disabled, the call is the identity on the page
sequence and performs no external call. -/
theorem C6_disabled_identity (env : Env) (pages : List Page) :
    ocrCall env false pages = ⟨pages, [], none⟩ :=
  rfl

/-- C7 (counterexample): on an enabled run over the single page with no
backend reference, the call yields zero pages for one input page, aborting
with the assertion failure, although no rendering or recognition failed. -/
theorem C7_per_page_counterexample :
    (ocrCall sampleEnv true [samplePageNoBackend]).yielded.length = 0 ∧
    [samplePageNoBackend].length = 1 ∧
    (ocrCall sampleEnv true [samplePageNoBackend]).aborted =
      some PipelineError.assertionFailed :=
  ⟨rfl, rfl, rfl⟩

/-- C7 (amended): provided additionally that, when the stage is enabled,
every page's backend reference is present, the call yields exactly one
output page per input page, in order, and does not abort. -/
theorem C7_length_order_preserved (env : Env) (enabled : Bool)
    (pages : List Page)
    (hb : enabled = true → ∀ p ∈ pages, p.backend.isSome) :
    (ocrCall env enabled pages).yielded =
      pages.map (fun p => if enabled then processedPage env p else p) ∧
    (ocrCall env enabled pages).aborted = none := by
  cases enabled with
  | false => simp [ocrCall]
  | true =>
    have h := processPages_all_some env pages (hb rfl)
    simpa [ocrCall] using h

/-- Witness for C7 (amended) on a concrete enabled run. -/
theorem C7_length_order_preserved_witness :
    (ocrCall sampleEnv true [samplePageValid]).yielded =
      [samplePageValid].map
        (fun p => if true then processedPage sampleEnv p else p) ∧
    (ocrCall sampleEnv true [samplePageValid]).aborted = none :=
  C7_length_order_preserved sampleEnv true [samplePageValid]
    (fun _ p hp => by
      simp only [List.mem_singleton] at hp
      subst hp
      rfl)

/-- C8: cell indices restart at zero in every region: the cells of one
region are indexed by their position in that region's detection list, and a
page with two regions of two detections each produces the index sequence
`[0, 1, 0, 1]`. -/
theorem C8_index_per_region :
    (∀ (W H S : ℚ) (boxes : List RawDetection),
      (cellsForRegion W H S boxes).map TextCell.index =
        List.range boxes.length) ∧
    (processRects sampleEnv sampleBackendValid [rectA, rectB]).1.map
        TextCell.index = [0, 1, 0, 1] := by
  have hgen : ∀ (W H S : ℚ) (boxes : List RawDetection),
      (cellsForRegion W H S boxes).map TextCell.index =
        List.range boxes.length := by
    intro W H S boxes
    show (boxes.enum.map _).map TextCell.index = _
    rw [List.map_map]
    exact List.enum_map_fst boxes
  refine ⟨hgen, ?_⟩
  have ha : rectA.area ≠ 0 := by norm_num [rectA, OcrRect.area]
  have hb : rectB.area ≠ 0 := by norm_num [rectB, OcrRect.area]
  simp [processRects, processRect, ha, hb, sampleEnv, sampleBackendValid,
    hgen, sampleDetections, List.range_succ]

/-- C9: with the stage enabled, an unsupported platform or a missing engine
library makes construction fail; the call itself never raises a
configuration error; with the stage disabled, construction always
succeeds. -/
theorem C9_construction_availability :
    (∀ (platform : String) (installed : Bool),
      (platform ≠ "darwin" ∨ installed = false) →
      ∃ e, mkOcrMacModel true platform installed = .error e) ∧
    (∀ (env : Env) (enabled : Bool) (pages : List Page),
      (ocrCall env enabled pages).aborted ≠
        some PipelineError.configurationError) ∧
    (∀ (platform : String) (installed : Bool),
      ∃ m, mkOcrMacModel false platform installed = .ok m) := by
  refine ⟨?_, ?_, ?_⟩
  · intro platform installed h
    by_cases hp : platform = "darwin"
    · have hi : installed = false := by
        rcases h with h | h
        · exact absurd hp h
        · exact h
      exact ⟨.engineNotInstalled, by simp [mkOcrMacModel, hp, hi]⟩
    · exact ⟨.platformUnsupported, by simp [mkOcrMacModel, hp]⟩
  · intro env enabled pages
    cases enabled with
    | false => simp [ocrCall]
    | true =>
      show (processPages env pages).aborted ≠ _
      induction pages with
      | nil => simp [processPages]
      | cons p ps ih =>
        cases hp : processPage env p with
        | error e =>
          have he := processPage_error_assertion env p e hp
          subst he
          simp [processPages, hp]
        | ok pe => simp [processPages, hp, ih]
  · intro platform installed
    exact ⟨⟨false, 3⟩, by simp [mkOcrMacModel]⟩

/-- Witness for C9 at a concrete non-darwin platform and a concrete call. -/
theorem C9_construction_availability_witness :
    (∃ e, mkOcrMacModel true "linux" true = .error e) ∧
    (ocrCall sampleEnv true [samplePageValid]).aborted ≠
      some PipelineError.configurationError ∧
    ∃ m, mkOcrMacModel false "linux" false = .ok m :=
  ⟨C9_construction_availability.1 "linux" true (Or.inl (by decide)),
   C9_construction_availability.2.1 sampleEnv true [samplePageValid],
   C9_construction_availability.2.2 "linux" false⟩

/-- C10: on an enabled run, a page with no backend reference fails the
assertion, aborting the stream after the pages before it; on a disabled run
the same sequence passes through unchanged. -/
theorem C10_backend_assertion (env : Env) (ps qs : List Page) (p : Page)
    (hps : ∀ q ∈ ps, q.backend.isSome) (hp : p.backend = none) :
    processPage env p = .error .assertionFailed ∧
    ((ocrCall env true (ps ++ p :: qs)).aborted =
        some PipelineError.assertionFailed ∧
      (ocrCall env true (ps ++ p :: qs)).yielded.length = ps.length) ∧
    ocrCall env false (ps ++ p :: qs) = ⟨ps ++ p :: qs, [], none⟩ := by
  refine ⟨by simp [processPage, hp], ?_, rfl⟩
  have h := processPages_abort_at env p hp ps hps qs
  exact ⟨h.1, h.2⟩

/-- Witness for C10: one good page, then a page with no backend. -/
theorem C10_backend_assertion_witness :
    processPage sampleEnv samplePageNoBackend = .error .assertionFailed ∧
    ((ocrCall sampleEnv true
          ([samplePageValid] ++ samplePageNoBackend :: [])).aborted =
        some PipelineError.assertionFailed ∧
      (ocrCall sampleEnv true
          ([samplePageValid] ++ samplePageNoBackend :: [])).yielded.length =
        [samplePageValid].length) ∧
    ocrCall sampleEnv false ([samplePageValid] ++ samplePageNoBackend :: []) =
      ⟨[samplePageValid] ++ samplePageNoBackend :: [], [], none⟩ :=
  C10_backend_assertion sampleEnv [samplePageValid] [] samplePageNoBackend
    (fun q hq => by
      simp only [List.mem_singleton] at hq
      subst hq
      rfl)
    rfl

end OcrMac
